import Mathlib

/-!
Shallow embedding of the core of the Algorithmic Trading Backtester
(src/backtester/portfolio.py, src/backtester/engine.py,
src/backtester/metrics.py, src/strategies/rsi_strategy.py,
src/strategies/ma_crossover.py).

Prices, cash and rates are modelled as exact rationals (the source uses
Python floats; every claim examined here is about exact arithmetic
relationships, branch structure and bookkeeping, not float rounding).
Dates are modelled as natural numbers (day ordinals): the source carries
opaque datetime values and only ever appends, stores and compares them.
-/

/-- A completed trade, mirroring the `Trade` dataclass of
`src/backtester/portfolio.py`.  The source stores `direction` as a string
(always `'long'` in the code paths that create trades). -/
structure Trade where
  entry_date : ℕ
  exit_date : ℕ
  entry_price : ℚ
  exit_price : ℚ
  shares : ℚ
  direction : String
  commission : ℚ
deriving DecidableEq, Repr

/-- `Trade.__post_init__`: pnl is price difference times shares minus the
stored commission (which `_close_long` sets to the exit commission only). -/
def Trade.pnl (t : Trade) : ℚ :=
  if t.direction = "long" then (t.exit_price - t.entry_price) * t.shares - t.commission
  else (t.entry_price - t.exit_price) * t.shares - t.commission

/-- `Trade.__post_init__`: return percentage relative to cost basis
(`entry_price * shares`); left at the default 0 when the cost basis is not
positive. -/
def Trade.return_pct (t : Trade) : ℚ :=
  if 0 < t.entry_price * t.shares then t.pnl / (t.entry_price * t.shares) * 100 else 0

/-- State of the `Portfolio` class of `src/backtester/portfolio.py`.
`total_slippage_cost` is omitted: the source declares it and never writes
to it, and no claim mentions it. -/
structure Portfolio where
  initial_capital : ℚ
  current_capital : ℚ
  commission_rate : ℚ
  slippage_rate : ℚ
  position : ℚ
  position_entry_price : ℚ
  position_entry_date : Option ℕ
  equity_curve : List ℚ
  dates : List ℕ
  trades : List Trade
  total_commission_paid : ℚ
deriving DecidableEq, Repr

/-- `Portfolio.__init__`. -/
def Portfolio.init (cap comm slip : ℚ) : Portfolio :=
  { initial_capital := cap
    current_capital := cap
    commission_rate := comm
    slippage_rate := slip
    position := 0
    position_entry_price := 0
    position_entry_date := none
    equity_curve := []
    dates := []
    trades := []
    total_commission_paid := 0 }

/-- `Portfolio.get_equity`: mark-to-market equity at the given price. -/
def Portfolio.get_equity (p : Portfolio) (price : ℚ) : ℚ :=
  p.current_capital + p.position * price

/-- `Portfolio.update_equity_curve`: append one date and one equity point. -/
def Portfolio.update_equity_curve (p : Portfolio) (date : ℕ) (price : ℚ) : Portfolio :=
  { p with dates := p.dates ++ [date]
           equity_curve := p.equity_curve ++ [p.get_equity price] }

/-- `Portfolio._open_long`: spend all cash (minus commission) on shares at
the given fill price.  Returns the new state and the Python method's
boolean result. -/
def Portfolio.open_long (p : Portfolio) (date : ℕ) (price : ℚ) : Portfolio × Bool :=
  if p.current_capital ≤ 0 then (p, false)
  else
    let commission := p.current_capital * p.commission_rate
    let available := p.current_capital - commission
    if available ≤ 0 then (p, false)
    else
      ({ p with position := available / price
                position_entry_price := price
                position_entry_date := some date
                current_capital := 0
                total_commission_paid := p.total_commission_paid + commission }, true)

/-- `Portfolio._close_long`: sell the whole position at the given fill
price, record a `Trade` whose stored commission is the exit commission. -/
def Portfolio.close_long (p : Portfolio) (date : ℕ) (price : ℚ) : Portfolio × Bool :=
  if p.position = 0 then (p, false)
  else
    let proceeds := p.position * price
    let commission := proceeds * p.commission_rate
    let net_proceeds := proceeds - commission
    let t : Trade :=
      { entry_date := p.position_entry_date.getD 0
        exit_date := date
        entry_price := p.position_entry_price
        exit_price := price
        shares := p.position
        direction := "long"
        commission := commission }
    ({ p with trades := p.trades ++ [t]
              current_capital := net_proceeds
              total_commission_paid := p.total_commission_paid + commission
              position := 0
              position_entry_price := 0
              position_entry_date := none }, true)

/-- `np.sign` on the integer signal. -/
def intSign (s : ℤ) : ℚ :=
  if 0 < s then 1 else if s < 0 then -1 else 0

/-- `Portfolio.execute_trade`: slippage-adjust the price, then open on a
buy signal when flat, close on a sell signal when long, otherwise no-op. -/
def Portfolio.execute_trade (p : Portfolio) (date : ℕ) (price : ℚ) (signal : ℤ) :
    Portfolio × Bool :=
  if signal = 0 then (p, false)
  else
    let effective_price := price * (1 + p.slippage_rate * intSign signal)
    if signal = 1 ∧ p.position = 0 then p.open_long date effective_price
    else if signal = -1 ∧ 0 < p.position then p.close_long date effective_price
    else (p, false)

/-- One bar of the input fed to `Backtester.run`: the bar's date, its close
price, and the strategy's signal for that bar (the source iterates the
signal-annotated dataframe row by row). -/
structure Bar where
  date : ℕ
  close : ℚ
  signal : ℤ
deriving DecidableEq, Repr

/-- The per-bar loop body of `Backtester.run`: execute the signal, then
unconditionally append an equity point. -/
def runStep (p : Portfolio) (b : Bar) : Portfolio :=
  ((p.execute_trade b.date b.close b.signal).1).update_equity_curve b.date b.close

/-- The bar loop of `Backtester.run`. -/
def runLoop (p : Portfolio) (bars : List Bar) : Portfolio :=
  bars.foldl runStep p

/-- The end-of-run rule of `Backtester.run`: if a position is still open
after the loop, close it directly with `_close_long` at the last bar's raw
close price (no slippage adjustment, since `execute_trade` is bypassed). -/
def forceClose (p : Portfolio) (bars : List Bar) : Portfolio :=
  if 0 < p.position then
    match bars.getLast? with
    | some b => (p.close_long b.date b.close).1
    | none => p
  else p

/-- `Backtester.run` (src/backtester/engine.py): fold the portfolio over
the bars, then force-close any open position at the last bar. -/
def Backtester.run (cap comm slip : ℚ) (bars : List Bar) : Portfolio :=
  forceClose (runLoop (Portfolio.init cap comm slip) bars) bars

/-- `Portfolio.get_summary`'s `final_equity`: last equity point, or the
initial capital when the curve is empty. -/
def Portfolio.final_equity (p : Portfolio) : ℚ :=
  (p.equity_curve.getLast?).getD p.initial_capital

/-- `Portfolio.get_summary`'s `total_return` (percentage of initial capital). -/
def Portfolio.summary_total_return (p : Portfolio) : ℚ :=
  (p.final_equity - p.initial_capital) / p.initial_capital * 100

/-- Sum of recorded trade pnls. -/
def pnlSum (ts : List Trade) : ℚ := (ts.map Trade.pnl).sum

/-- Sum of the commissions stored on recorded trades (exit commissions). -/
def commSum (ts : List Trade) : ℚ := (ts.map Trade.commission).sum

/-!
Performance metrics (src/backtester/metrics.py).

The source computes on pandas objects; here the equity curve is a list of
rationals, the date index a list of day ordinals, and the trade table a
list of pnl values (plus return percentages where needed).  Two float
primitives have no rational counterpart — square root (used by volatility
and Sharpe) and real exponentiation (used by annualized return and the
daily risk-free rate) — so the corresponding definitions take them as
function parameters; every branch and every other arithmetic operation is
translated exactly.  Division by zero follows the ℚ convention x / 0 = 0
(the claims checked here never exercise those points).
-/

/-- Pandas `Series.pct_change().dropna()`: consecutive relative changes. -/
def pct_changes (xs : List ℚ) : List ℚ :=
  (xs.zip xs.tail).map (fun q => (q.2 - q.1) / q.1)

/-- Arithmetic mean of a list (pandas `.mean()`). -/
def listMean (xs : List ℚ) : ℚ := xs.sum / (xs.length : ℚ)

/-- Sample variance with ddof = 1, i.e. the square of pandas `.std()`. -/
def sampleVar (xs : List ℚ) : ℚ :=
  ((xs.map (fun x => (x - listMean xs) ^ 2)).sum) / ((xs.length : ℚ) - 1)

/-- Helper for `runningMax`: running maxima continuing from `m`. -/
def runningMaxFrom (m : ℚ) : List ℚ → List ℚ
  | [] => []
  | x :: xs => max m x :: runningMaxFrom (max m x) xs

/-- Pandas `.expanding().max()`: running maximum of a series. -/
def runningMax : List ℚ → List ℚ
  | [] => []
  | x :: xs => x :: runningMaxFrom x xs

/-- Minimum of a list, 0 when empty (pandas `.min()` is only applied to
nonempty series in the source). -/
def listMin : List ℚ → ℚ
  | [] => 0
  | x :: xs => xs.foldl min x

/-- `PerformanceMetrics._total_return`. -/
def PerformanceMetrics.total_return (equity : List ℚ) : ℚ :=
  if equity.length < 2 then 0
  else
    let initial := equity.headI
    let final := equity.getLast?.getD 0
    if 0 < initial then (final - initial) / initial * 100 else 0

/-- `PerformanceMetrics._annualized_return`; `pow_fn a b` stands for the
float power `a ** b`. -/
def PerformanceMetrics.annualized_return (pow_fn : ℚ → ℚ → ℚ)
    (equity : List ℚ) (dates : List ℕ) : ℚ :=
  if equity.length < 2 then 0
  else
    let days : ℚ := ((dates.getLast?.getD 0 : ℕ) : ℚ) - ((dates.headI : ℕ) : ℚ)
    let years := days / (36525 / 100)
    if years ≤ 0 then 0
    else
      let initial := equity.headI
      let final := equity.getLast?.getD 0
      if initial ≤ 0 then 0
      else (pow_fn (final / initial) (1 / years) - 1) * 100

/-- `PerformanceMetrics._volatility`; `sqrt_fn` stands for the float
square root (the source writes `returns.std() * np.sqrt(252) * 100` and
`std` is the square root of the sample variance). -/
def PerformanceMetrics.volatility (sqrt_fn : ℚ → ℚ) (equity : List ℚ) : ℚ :=
  if equity.length < 2 then 0
  else sqrt_fn (sampleVar (pct_changes equity)) * sqrt_fn 252 * 100

/-- `PerformanceMetrics._sharpe`; `sqrt_fn`, `pow_fn` are the float square
root and power. -/
def PerformanceMetrics.sharpe (sqrt_fn : ℚ → ℚ) (pow_fn : ℚ → ℚ → ℚ)
    (risk_free_rate : ℚ) (equity : List ℚ) : ℚ :=
  if equity.length < 2 then 0
  else
    let returns := pct_changes equity
    if sqrt_fn (sampleVar returns) = 0 then 0
    else
      let daily_rf := pow_fn (1 + risk_free_rate) (1 / 252) - 1
      listMean (returns.map (fun r => r - daily_rf)) / sqrt_fn (sampleVar returns) *
        sqrt_fn 252

/-- `PerformanceMetrics._max_drawdown`. -/
def PerformanceMetrics.max_drawdown (equity : List ℚ) : ℚ :=
  if equity.length = 0 then 0
  else
    let cummax := runningMax equity
    let dd := (equity.zip cummax).map (fun q => (q.1 - q.2) / q.2 * 100)
    listMin dd

/-- `PerformanceMetrics._calculate_metrics`: `num_trades = len(trades)`
(the trade table is represented by its pnl column). -/
def PerformanceMetrics.num_trades (pnls : List ℚ) : ℕ := pnls.length

/-- `PerformanceMetrics._win_rate`. -/
def PerformanceMetrics.win_rate (pnls : List ℚ) : ℚ :=
  if pnls = [] then 0
  else ((pnls.filter (fun x => decide (0 < x))).length : ℚ) / (pnls.length : ℚ) * 100

/-- Gross profit: sum of positive pnls (`PerformanceMetrics._profit_factor`). -/
def grossProfit (pnls : List ℚ) : ℚ := (pnls.filter (fun x => decide (0 < x))).sum

/-- Gross loss: absolute sum of negative pnls (`PerformanceMetrics._profit_factor`). -/
def grossLoss (pnls : List ℚ) : ℚ := |(pnls.filter (fun x => decide (x < 0))).sum|

/-- Value of the profit factor: either the float `inf` the source returns
for `gross_profit / 0` with positive profit, or a finite rational. -/
inductive PFValue where
  | posInf : PFValue
  | val : ℚ → PFValue
deriving DecidableEq, Repr

/-- `PerformanceMetrics._profit_factor`. -/
def PerformanceMetrics.profit_factor (pnls : List ℚ) : PFValue :=
  if pnls = [] then .val 0
  else if grossLoss pnls = 0 then
    (if 0 < grossProfit pnls then .posInf else .val 0)
  else .val (grossProfit pnls / grossLoss pnls)

/-- `PerformanceMetrics._avg_trade_return` (over the `return_pct` column). -/
def PerformanceMetrics.avg_trade_return (return_pcts : List ℚ) : ℚ :=
  if return_pcts = [] then 0 else listMean return_pcts

/-- The fields of `PerformanceMetrics` set by `_calculate_metrics` that
the specification's claims mention (`max_drawdown_duration` is omitted:
no claim refers to it). -/
structure PerformanceSummary where
  total_return : ℚ
  annualized_return : ℚ
  volatility : ℚ
  sharpe_ratio : ℚ
  max_drawdown : ℚ
  num_trades : ℕ
  win_rate : ℚ
  profit_factor : PFValue
  avg_trade_return : ℚ
deriving DecidableEq, Repr

/-- `PerformanceMetrics._calculate_metrics`: assemble the summary from the
equity curve, its date index, and the trade table's pnl / return_pct
columns. -/
def PerformanceMetrics.calculate_metrics (sqrt_fn : ℚ → ℚ) (pow_fn : ℚ → ℚ → ℚ)
    (risk_free_rate : ℚ) (equity : List ℚ) (dates : List ℕ)
    (pnls return_pcts : List ℚ) : PerformanceSummary :=
  { total_return := PerformanceMetrics.total_return equity
    annualized_return := PerformanceMetrics.annualized_return pow_fn equity dates
    volatility := PerformanceMetrics.volatility sqrt_fn equity
    sharpe_ratio := PerformanceMetrics.sharpe sqrt_fn pow_fn risk_free_rate equity
    max_drawdown := PerformanceMetrics.max_drawdown equity
    num_trades := PerformanceMetrics.num_trades pnls
    win_rate := PerformanceMetrics.win_rate pnls
    profit_factor := PerformanceMetrics.profit_factor pnls
    avg_trade_return := PerformanceMetrics.avg_trade_return return_pcts }

/-!
RSI strategy (src/strategies/rsi_strategy.py).

`calculate_indicators` computes `delta = Close.diff()`, clips gains and
losses, smooths both with `ewm(com=period-1, min_periods=period).mean()`
(adjust=True, so the value at bar t is the weighted average of the
observations at bars 1..t with weights ((period-1)/period)^(t-i)), and
sets `RSI = 100 - 100/(1 + avg_gain/avg_loss)` after replacing a zero
average loss by NaN.  NaN is modelled as `none`; a NaN RSI makes both
zone tests false, exactly as a float NaN comparison does.
-/

/-- `Close.diff()` without its leading NaN: consecutive differences. -/
def deltas (closes : List ℚ) : List ℚ :=
  (closes.zip closes.tail).map (fun q => q.2 - q.1)

/-- Exponentially weighted average (pandas `ewm(...).mean()` with
adjust=True) of a list, most recent element last: the fold accumulates
`Σ w^(n-1-i) x_i` and `Σ w^(n-1-i)` and divides. -/
def ewmAvg (w : ℚ) (xs : List ℚ) : ℚ :=
  let nd := xs.foldl (fun nd x => (nd.1 * w + x, nd.2 * w + 1)) ((0 : ℚ), (0 : ℚ))
  nd.1 / nd.2

/-- Smoothed average gain at bar `t` (0-based): ewm mean of the clipped
positive deltas of bars 1..t, with weight ratio (period-1)/period (i.e.
center of mass period-1). -/
def rsiAvgGain (period : ℕ) (closes : List ℚ) (t : ℕ) : ℚ :=
  ewmAvg (((period : ℚ) - 1) / (period : ℚ))
    (((deltas closes).take t).map (fun d => max d 0))

/-- Smoothed average loss at bar `t` (0-based). -/
def rsiAvgLoss (period : ℕ) (closes : List ℚ) (t : ℕ) : ℚ :=
  ewmAvg (((period : ℚ) - 1) / (period : ℚ))
    (((deltas closes).take t).map (fun d => max (-d) 0))

/-- The RSI value of bar `t`: `none` while fewer than `period`
observations have accumulated (min_periods) and when the average loss is
zero (the source's `replace(0, np.nan)` makes the ratio, hence the RSI,
NaN there). -/
def rsiAt (period : ℕ) (closes : List ℚ) (t : ℕ) : Option ℚ :=
  if t < period then none
  else if rsiAvgLoss period closes t = 0 then none
  else some (100 - 100 / (1 + rsiAvgGain period closes t / rsiAvgLoss period closes t))

/-- `df['RSI'] < oversold` at bar `t` (false on NaN). -/
def inOversold (period : ℕ) (oversold : ℚ) (closes : List ℚ) (t : ℕ) : Bool :=
  match rsiAt period closes t with
  | none => false
  | some r => decide (r < oversold)

/-- `df['RSI'] > overbought` at bar `t` (false on NaN). -/
def inOverbought (period : ℕ) (overbought : ℚ) (closes : List ℚ) (t : ℕ) : Bool :=
  match rsiAt period closes t with
  | none => false
  | some r => decide (overbought < r)

/-- `in_oversold & ~in_oversold.shift(1).fillna(False)` at bar `t`. -/
def enterOversold (period : ℕ) (oversold : ℚ) (closes : List ℚ) (t : ℕ) : Bool :=
  inOversold period oversold closes t &&
    !(if t = 0 then false else inOversold period oversold closes (t - 1))

/-- `in_overbought & ~in_overbought.shift(1).fillna(False)` at bar `t`. -/
def enterOverbought (period : ℕ) (overbought : ℚ) (closes : List ℚ) (t : ℕ) : Bool :=
  inOverbought period overbought closes t &&
    !(if t = 0 then false else inOverbought period overbought closes (t - 1))

/-- One `df.loc[cond, 'signal'] = v` masked assignment over the signal
column. -/
def assignWhere (cond : ℕ → Bool) (v : ℤ) (sig : List ℤ) : List ℤ :=
  (List.range sig.length).map (fun t => if cond t then v else sig.getD t 0)

/-- `RSIStrategy.generate_signals`: start from an all-zero column, set +1
on oversold-entry bars, then set -1 on overbought-entry bars (the second
assignment runs after, and so overrides, the first). -/
def RSIStrategy.generate_signals (period : ℕ) (oversold overbought : ℚ)
    (closes : List ℚ) : List ℤ :=
  assignWhere (enterOverbought period overbought closes) (-1)
    (assignWhere (enterOversold period oversold closes) 1
      (List.replicate closes.length 0))

/-!
Moving-average crossover strategy (src/strategies/ma_crossover.py).
-/

/-- `MovingAverageCrossover.__init__`: the constructor stores the two
windows and immediately calls `_validate_params`, which raises
`ValueError` on a non-positive window or on short ≥ long; a successful
construction returns the validated pair. -/
def MovingAverageCrossover.init (short_window long_window : ℤ) :
    Except String (ℤ × ℤ) :=
  if short_window ≤ 0 ∨ long_window ≤ 0 then
    Except.error "Window periods must be positive integers"
  else if long_window ≤ short_window then
    Except.error "Short window must be less than long window"
  else Except.ok (short_window, long_window)

/-- `Close.rolling(window=w).mean()` at bar `t`: mean of the last `w`
closes, `none` (NaN) for the first `w - 1` bars. -/
def rollingMean (w : ℕ) (xs : List ℚ) (t : ℕ) : Option ℚ :=
  if t + 1 < w then none
  else some ((((xs.drop (t + 1 - w)).take w).sum) / (w : ℚ))

/-- The `position` column of `MovingAverageCrossover.generate_signals`:
1 where both moving averages are defined and the short one is strictly
above the long one, 0 elsewhere. -/
def maPosition (short_window long_window : ℕ) (closes : List ℚ) (t : ℕ) : ℤ :=
  match rollingMean short_window closes t, rollingMean long_window closes t with
  | some ms, some ml => if ml < ms then 1 else 0
  | _, _ => 0

/-- `MovingAverageCrossover.generate_signals`: the signal column is the
first difference of the position column with the leading NaN filled with
0.  It performs no parameter validation. -/
def MovingAverageCrossover.generate_signals (short_window long_window : ℕ)
    (closes : List ℚ) : List ℤ :=
  (List.range closes.length).map (fun t =>
    if t = 0 then 0
    else maPosition short_window long_window closes t -
      maPosition short_window long_window closes (t - 1))

/-!
Concrete inputs used by the claim checks.
-/

/-- The spec's 5-bar concrete scenario: closes [100,105,103,110,108],
signals [+1,0,0,-1,0]. -/
def bars5 : List Bar := [⟨0, 100, 1⟩, ⟨1, 105, 0⟩, ⟨2, 103, 0⟩, ⟨3, 110, -1⟩, ⟨4, 108, 0⟩]

/-- A 2-bar round trip: buy at 100, sell at 110. -/
def bars2 : List Bar := [⟨0, 100, 1⟩, ⟨1, 110, -1⟩]

/-- A single bar carrying a buy signal: the opened position is force-closed
on the same (last) bar. -/
def bars1 : List Bar := [⟨5, 100, 1⟩]

/-- Strictly falling closes: RSI(2) is 0 from bar 2 on. -/
def closesDown : List ℚ := [10, 9, 8, 7]

/-- Strictly rising closes: the average loss of RSI(2) is 0 from bar 2 on. -/
def closesUp : List ℚ := [1, 2, 3]

/-!
Helper lemmas: fields of the portfolio untouched by each operation.
-/

lemma open_long_static (p : Portfolio) (d : ℕ) (pr : ℚ) :
    (p.open_long d pr).1.initial_capital = p.initial_capital ∧
    (p.open_long d pr).1.commission_rate = p.commission_rate ∧
    (p.open_long d pr).1.slippage_rate = p.slippage_rate ∧
    (p.open_long d pr).1.equity_curve = p.equity_curve ∧
    (p.open_long d pr).1.dates = p.dates ∧
    (p.open_long d pr).1.trades = p.trades := by
  unfold Portfolio.open_long
  dsimp only
  split_ifs <;> simp

lemma close_long_static (p : Portfolio) (d : ℕ) (pr : ℚ) :
    (p.close_long d pr).1.initial_capital = p.initial_capital ∧
    (p.close_long d pr).1.commission_rate = p.commission_rate ∧
    (p.close_long d pr).1.slippage_rate = p.slippage_rate ∧
    (p.close_long d pr).1.equity_curve = p.equity_curve ∧
    (p.close_long d pr).1.dates = p.dates := by
  unfold Portfolio.close_long
  dsimp only
  split_ifs <;> simp

lemma execute_trade_static (p : Portfolio) (d : ℕ) (pr : ℚ) (s : ℤ) :
    (p.execute_trade d pr s).1.initial_capital = p.initial_capital ∧
    (p.execute_trade d pr s).1.commission_rate = p.commission_rate ∧
    (p.execute_trade d pr s).1.slippage_rate = p.slippage_rate ∧
    (p.execute_trade d pr s).1.equity_curve = p.equity_curve ∧
    (p.execute_trade d pr s).1.dates = p.dates := by
  unfold Portfolio.execute_trade
  dsimp only
  split_ifs
  · simp
  · exact ⟨(open_long_static ..).1, (open_long_static ..).2.1, (open_long_static ..).2.2.1,
      (open_long_static ..).2.2.2.1, (open_long_static ..).2.2.2.2.1⟩
  · exact ⟨(close_long_static ..).1, (close_long_static ..).2.1, (close_long_static ..).2.2.1,
      (close_long_static ..).2.2.2.1, (close_long_static ..).2.2.2.2⟩
  · simp

lemma runStep_dates (p : Portfolio) (b : Bar) :
    (runStep p b).dates = p.dates ++ [b.date] := by
  unfold runStep Portfolio.update_equity_curve
  simp [(execute_trade_static ..).2.2.2.2]

lemma runStep_curve_len (p : Portfolio) (b : Bar) :
    (runStep p b).equity_curve.length = p.equity_curve.length + 1 := by
  unfold runStep Portfolio.update_equity_curve
  simp [(execute_trade_static ..).2.2.2.1]

lemma runStep_static (p : Portfolio) (b : Bar) :
    (runStep p b).initial_capital = p.initial_capital ∧
    (runStep p b).commission_rate = p.commission_rate ∧
    (runStep p b).slippage_rate = p.slippage_rate := by
  unfold runStep Portfolio.update_equity_curve
  exact ⟨(execute_trade_static ..).1, (execute_trade_static ..).2.1,
    (execute_trade_static ..).2.2.1⟩

lemma runLoop_cons (p : Portfolio) (b : Bar) (bs : List Bar) :
    runLoop p (b :: bs) = runLoop (runStep p b) bs := rfl

lemma runLoop_dates (bars : List Bar) : ∀ p : Portfolio,
    (runLoop p bars).dates = p.dates ++ bars.map Bar.date := by
  induction bars with
  | nil => intro p; simp [runLoop]
  | cons b bs ih =>
    intro p
    rw [runLoop_cons, ih, runStep_dates]
    simp

lemma runLoop_curve_len (bars : List Bar) : ∀ p : Portfolio,
    (runLoop p bars).equity_curve.length = p.equity_curve.length + bars.length := by
  induction bars with
  | nil => intro p; simp [runLoop]
  | cons b bs ih =>
    intro p
    rw [runLoop_cons, ih, runStep_curve_len]
    simp [Nat.add_assoc, Nat.add_comm 1 bs.length]

lemma runLoop_static (bars : List Bar) : ∀ p : Portfolio,
    (runLoop p bars).initial_capital = p.initial_capital ∧
    (runLoop p bars).commission_rate = p.commission_rate ∧
    (runLoop p bars).slippage_rate = p.slippage_rate := by
  induction bars with
  | nil => intro p; exact ⟨rfl, rfl, rfl⟩
  | cons b bs ih =>
    intro p
    rw [runLoop_cons]
    refine ⟨?_, ?_, ?_⟩
    · rw [(ih _).1, (runStep_static ..).1]
    · rw [(ih _).2.1, (runStep_static ..).2.1]
    · rw [(ih _).2.2, (runStep_static ..).2.2]

/-- C2: every run appends exactly one equity point per input bar — the
equity-curve length equals the bar count and the recorded dates are
exactly the bars' dates in order (so an empty bar series yields an empty
curve); the end-of-run forced close touches neither list. -/
theorem C2_theorem (cap comm slip : ℚ) (bars : List Bar) :
    (Backtester.run cap comm slip bars).equity_curve.length = bars.length ∧
    (Backtester.run cap comm slip bars).dates = bars.map Bar.date := by
  have hlen := runLoop_curve_len bars (Portfolio.init cap comm slip)
  have hdates := runLoop_dates bars (Portfolio.init cap comm slip)
  simp only [Portfolio.init, List.length_nil, List.nil_append, Nat.zero_add] at hlen hdates
  unfold Backtester.run forceClose
  split_ifs with h
  · cases hb : bars.getLast? with
    | none => exact ⟨by simpa using hlen, by simpa using hdates⟩
    | some b =>
      refine ⟨?_, ?_⟩
      · rw [(close_long_static ..).2.2.2.1]; simpa using hlen
      · rw [(close_long_static ..).2.2.2.2]; simpa using hdates
  · exact ⟨by simpa using hlen, by simpa using hdates⟩

/-- C9: constructing an MA crossover strategy returns a validation error
exactly when a window is non-positive or short ≥ long, so invalid
parameters never survive construction; `generate_signals` performs no
validation — it is total and emits one signal per bar on any input. -/
theorem C9_theorem :
    (∀ short_window long_window : ℤ,
      (∃ msg, MovingAverageCrossover.init short_window long_window = Except.error msg) ↔
        short_window ≤ 0 ∨ long_window ≤ 0 ∨ long_window ≤ short_window) ∧
    (∀ (s l : ℕ) (closes : List ℚ),
      (MovingAverageCrossover.generate_signals s l closes).length = closes.length) := by
  constructor
  · intro s l
    unfold MovingAverageCrossover.init
    split_ifs with h1 h2
    · simpa using Or.imp id Or.inl h1
    · simp [h2]
    · push_neg at h1 h2
      simp
      omega
  · intro s l closes
    simp [MovingAverageCrossover.generate_signals]

/-- C7: the metrics calculator's profit factor is 0 on an empty trade log,
gross_profit / gross_loss when the gross loss is positive, and +infinity
when the gross loss is zero and the gross profit positive. -/
theorem C7_theorem (pnls : List ℚ) :
    (pnls = [] → PerformanceMetrics.profit_factor pnls = PFValue.val 0) ∧
    (0 < grossLoss pnls →
      PerformanceMetrics.profit_factor pnls = PFValue.val (grossProfit pnls / grossLoss pnls)) ∧
    (grossLoss pnls = 0 → 0 < grossProfit pnls →
      PerformanceMetrics.profit_factor pnls = PFValue.posInf) := by
  refine ⟨?_, ?_, ?_⟩
  · intro h
    simp [PerformanceMetrics.profit_factor, h]
  · intro h
    have hne : pnls ≠ [] := by
      intro he
      rw [he] at h
      simp [grossLoss] at h
    have h0 : ¬ grossLoss pnls = 0 := by linarith
    simp [PerformanceMetrics.profit_factor, hne, h0]
  · intro h0 hp
    have hne : pnls ≠ [] := by
      intro he
      rw [he] at hp
      simp [grossProfit] at hp
    simp [PerformanceMetrics.profit_factor, hne, h0, hp]

/-- C7 witness: on the trade log [5, -2] the profit factor is 5/2, and on
[3] (no losers) it is +infinity. -/
theorem C7_witness :
    PerformanceMetrics.profit_factor [(5 : ℚ), -2] = PFValue.val (5 / 2) ∧
    PerformanceMetrics.profit_factor [(3 : ℚ)] = PFValue.posInf := by
  constructor
  · have hg : grossLoss [(5 : ℚ), -2] = 2 := by norm_num [grossLoss, List.filter]
    have hp : grossProfit [(5 : ℚ), -2] = 5 := by norm_num [grossProfit, List.filter]
    have h := (C7_theorem [(5 : ℚ), -2]).2.1 (by rw [hg]; norm_num)
    rw [hg, hp] at h
    exact h
  · exact (C7_theorem [(3 : ℚ)]).2.2
      (by norm_num [grossLoss, List.filter])
      (by norm_num [grossProfit, List.filter])

/-- C8 counterexample: the claim demands num_trades = 0 for every
degenerate equity curve with any trade log, but the calculator sets
num_trades to the trade-table length: an empty curve with a one-trade log
yields num_trades = 1, not 0. -/
theorem C8_counterexample :
    ([] : List ℚ).length ≤ 1 ∧
    (PerformanceMetrics.calculate_metrics (fun _ => 0) (fun _ _ => 0) (1 / 25)
      [] [] [5] [2]).num_trades = 1 ∧
    ¬ (PerformanceMetrics.calculate_metrics (fun _ => 0) (fun _ _ => 0) (1 / 25)
      [] [] [5] [2]).num_trades = 0 := by
  refine ⟨by simp, rfl, by simp [PerformanceMetrics.calculate_metrics, PerformanceMetrics.num_trades]⟩

/-- C8 (amended): on an empty or single-point equity curve the calculator
returns zero for every equity-derived metric (total return, annualized
return, volatility, Sharpe, max drawdown) without error, for any float
primitives, and num_trades equals the supplied trade log's length (0
exactly when that log is empty, as in a run on an empty bar series). -/
theorem C8_amended (sqrt_fn : ℚ → ℚ) (pow_fn : ℚ → ℚ → ℚ) (rf : ℚ)
    (equity : List ℚ) (dates : List ℕ) (pnls return_pcts : List ℚ)
    (h : equity.length ≤ 1) :
    (PerformanceMetrics.calculate_metrics sqrt_fn pow_fn rf equity dates pnls return_pcts).total_return = 0 ∧
    (PerformanceMetrics.calculate_metrics sqrt_fn pow_fn rf equity dates pnls return_pcts).annualized_return = 0 ∧
    (PerformanceMetrics.calculate_metrics sqrt_fn pow_fn rf equity dates pnls return_pcts).volatility = 0 ∧
    (PerformanceMetrics.calculate_metrics sqrt_fn pow_fn rf equity dates pnls return_pcts).sharpe_ratio = 0 ∧
    (PerformanceMetrics.calculate_metrics sqrt_fn pow_fn rf equity dates pnls return_pcts).max_drawdown = 0 ∧
    (PerformanceMetrics.calculate_metrics sqrt_fn pow_fn rf equity dates pnls return_pcts).num_trades = pnls.length := by
  have h2 : equity.length < 2 := by omega
  refine ⟨?_, ?_, ?_, ?_, ?_, rfl⟩
  · simp [PerformanceMetrics.calculate_metrics, PerformanceMetrics.total_return, h2]
  · simp [PerformanceMetrics.calculate_metrics, PerformanceMetrics.annualized_return, h2]
  · simp [PerformanceMetrics.calculate_metrics, PerformanceMetrics.volatility, h2]
  · simp [PerformanceMetrics.calculate_metrics, PerformanceMetrics.sharpe, h2]
  · match equity, h with
    | [], _ => simp [PerformanceMetrics.calculate_metrics, PerformanceMetrics.max_drawdown, listMin]
    | [x], _ =>
      simp [PerformanceMetrics.calculate_metrics, PerformanceMetrics.max_drawdown,
        runningMax, runningMaxFrom, listMin]

/-- C8 witness: C8_amended applied to the single-point curve [42] (float
primitives instantiated with constant functions) and an empty trade log. -/
theorem C8_witness :
    (PerformanceMetrics.calculate_metrics (fun _ => 0) (fun _ _ => 0) (1 / 25)
      [42] [0] [] []).total_return = 0 ∧
    (PerformanceMetrics.calculate_metrics (fun _ => 0) (fun _ _ => 0) (1 / 25)
      [42] [0] [] []).annualized_return = 0 ∧
    (PerformanceMetrics.calculate_metrics (fun _ => 0) (fun _ _ => 0) (1 / 25)
      [42] [0] [] []).volatility = 0 ∧
    (PerformanceMetrics.calculate_metrics (fun _ => 0) (fun _ _ => 0) (1 / 25)
      [42] [0] [] []).sharpe_ratio = 0 ∧
    (PerformanceMetrics.calculate_metrics (fun _ => 0) (fun _ _ => 0) (1 / 25)
      [42] [0] [] []).max_drawdown = 0 ∧
    (PerformanceMetrics.calculate_metrics (fun _ => 0) (fun _ _ => 0) (1 / 25)
      [42] [0] [] []).num_trades = ([] : List ℚ).length :=
  C8_amended (fun _ => 0) (fun _ _ => 0) (1 / 25) [42] [0] [] [] (by simp)

/-- C6 (amended): once enough observations have accumulated, a zero
average loss makes the RSI of that bar undefined (NaN, modelled as
`none`) — the source replaces the zero divisor by NaN, so the bar's RSI is
not the sentinel 100 and no error is raised. -/
theorem C6_amended (period : ℕ) (closes : List ℚ) (t : ℕ)
    (hp : period ≤ t) (h0 : rsiAvgLoss period closes t = 0) :
    rsiAt period closes t = none := by
  unfold rsiAt
  rw [if_neg (by omega), if_pos h0]

/-- C6 counterexample: on strictly rising closes [1,2,3] with period 2,
bar 2 has average loss 0, and its RSI is NaN (none) — not the claimed
sentinel 100. -/
theorem C6_counterexample :
    rsiAvgLoss 2 closesUp 2 = 0 ∧ rsiAt 2 closesUp 2 = none ∧
    rsiAt 2 closesUp 2 ≠ some 100 := by
  have h0 : rsiAvgLoss 2 closesUp 2 = 0 := by
    norm_num [rsiAvgLoss, ewmAvg, deltas, closesUp]
  refine ⟨h0, ?_, ?_⟩
  · unfold rsiAt
    rw [if_neg (by omega), if_pos h0]
  · unfold rsiAt
    rw [if_neg (by omega), if_pos h0]
    simp

/-- C6 witness: C6_amended applied to closes [1,2,3], period 2, bar 2. -/
theorem C6_witness : rsiAt 2 closesUp 2 = none :=
  C6_amended 2 closesUp 2 (by norm_num)
    (by norm_num [rsiAvgLoss, ewmAvg, deltas, closesUp])

/-- C1 counterexample: a fully-closed run (buy at 100, sell at 110,
commission 0.1%, no slippage) ends flat with final equity 10978.011, but
initial capital plus the pnl sum is 10988.011 — the conservation law as
claimed fails by the 10.00 entry commission, which the recorded pnl does
not include. -/
theorem C1_counterexample :
    (Backtester.run 10000 (1 / 1000) 0 bars2).position = 0 ∧
    Portfolio.final_equity (Backtester.run 10000 (1 / 1000) 0 bars2) = 10978011 / 1000 ∧
    10000 + pnlSum (Backtester.run 10000 (1 / 1000) 0 bars2).trades = 10988011 / 1000 ∧
    (10978011 / 1000 : ℚ) ≠ 10988011 / 1000 := by
  refine ⟨?_, ?_, ?_, by norm_num⟩ <;>
    norm_num [Backtester.run, forceClose, runLoop, runStep, Portfolio.execute_trade,
      Portfolio.open_long, Portfolio.close_long, Portfolio.update_equity_curve,
      Portfolio.get_equity, Portfolio.init, intSign, bars2, Portfolio.final_equity,
      pnlSum, Trade.pnl]

/-- C3 counterexample: in the spec's 5-bar scenario the recorded trade's
pnl is 988.011 and its return_pct is 9.89% — 10.001 and 0.10 away from the
claimed ≈978.01 and ≈9.79%, beyond any display rounding (the claimed
values would require subtracting the 10.00 entry commission, which the
code does not attribute to the trade). -/
theorem C3_counterexample :
    ((Backtester.run 10000 (1 / 1000) 0 bars5).trades.map Trade.pnl = [988011 / 1000]) ∧
    ((Backtester.run 10000 (1 / 1000) 0 bars5).trades.map Trade.return_pct = [989 / 100]) ∧
    (988011 / 1000 - 97801 / 100 : ℚ) = 10001 / 1000 ∧
    (989 / 100 - 979 / 100 : ℚ) = 1 / 10 := by
  refine ⟨?_, ?_, by norm_num, by norm_num⟩ <;>
    norm_num [Backtester.run, forceClose, runLoop, runStep, Portfolio.execute_trade,
      Portfolio.open_long, Portfolio.close_long, Portfolio.update_equity_curve,
      Portfolio.get_equity, Portfolio.init, intSign, bars5, Trade.pnl, Trade.return_pct]

/-- C3 (amended): the 5-bar scenario produces exactly one trade with entry
price 100, shares 99.9, exit price 110, exit commission 10.989, pnl
988.011 and return_pct 9.89%; the final equity is 10978.011, the
portfolio summary's total_return is 9.78011% (relative to initial
capital), while the metrics calculator's total_return — measured from the
first equity point 9990 — is 9.89%. -/
theorem C3_amended :
    ((Backtester.run 10000 (1 / 1000) 0 bars5).trades.map Trade.entry_price = [100]) ∧
    ((Backtester.run 10000 (1 / 1000) 0 bars5).trades.map Trade.exit_price = [110]) ∧
    ((Backtester.run 10000 (1 / 1000) 0 bars5).trades.map Trade.shares = [999 / 10]) ∧
    ((Backtester.run 10000 (1 / 1000) 0 bars5).trades.map Trade.commission = [10989 / 1000]) ∧
    ((Backtester.run 10000 (1 / 1000) 0 bars5).trades.map Trade.pnl = [988011 / 1000]) ∧
    ((Backtester.run 10000 (1 / 1000) 0 bars5).trades.map Trade.return_pct = [989 / 100]) ∧
    Portfolio.final_equity (Backtester.run 10000 (1 / 1000) 0 bars5) = 10978011 / 1000 ∧
    Portfolio.summary_total_return (Backtester.run 10000 (1 / 1000) 0 bars5) = 978011 / 100000 ∧
    PerformanceMetrics.total_return (Backtester.run 10000 (1 / 1000) 0 bars5).equity_curve
      = 989 / 100 := by
  refine ⟨?_, ?_, ?_, ?_, ?_, ?_, ?_, ?_, ?_⟩ <;>
    norm_num [Backtester.run, forceClose, runLoop, runStep, Portfolio.execute_trade,
      Portfolio.open_long, Portfolio.close_long, Portfolio.update_equity_curve,
      Portfolio.get_equity, Portfolio.init, intSign, bars5, Trade.pnl, Trade.return_pct,
      Portfolio.final_equity, Portfolio.summary_total_return,
      PerformanceMetrics.total_return]

/-- C5 counterexample: a buy on the last (here: only) bar is force-closed
on that same bar, producing a trade whose exit_date equals its
entry_date — the claimed strict inequality fails even on a strictly
increasing date series. -/
theorem C5_counterexample :
    List.Pairwise (· < ·) (bars1.map Bar.date) ∧
    ((Backtester.run 10000 (1 / 1000) 0 bars1).trades.map
      (fun t => (t.entry_date, t.exit_date)) = [(5, 5)]) ∧
    ¬ (∀ t ∈ (Backtester.run 10000 (1 / 1000) 0 bars1).trades,
        t.entry_date < t.exit_date) := by
  refine ⟨by simp [bars1], ?_, ?_⟩ <;>
    norm_num [Backtester.run, forceClose, runLoop, runStep, Portfolio.execute_trade,
      Portfolio.open_long, Portfolio.close_long, Portfolio.update_equity_curve,
      Portfolio.get_equity, Portfolio.init, intSign, bars1]

/-- C4 counterexample: on falling closes [10,9,8,7] with RSI period 2 and
thresholds 30/70, bar 3 is inside the oversold zone (RSI < 30) yet its
generated signal is 0, not the claimed +1 — the strategy signals only on
zone entry (bar 2), not on every in-zone bar. -/
theorem C4_counterexample :
    inOversold 2 30 closesDown 3 = true ∧
    (RSIStrategy.generate_signals 2 30 70 closesDown).getD 3 0 = 0 := by
  constructor
  · norm_num [inOversold, rsiAt, rsiAvgGain, rsiAvgLoss, ewmAvg, deltas, closesDown]
  · norm_num [RSIStrategy.generate_signals, assignWhere, enterOversold, enterOverbought,
      inOversold, inOverbought, rsiAt, rsiAvgGain, rsiAvgLoss, ewmAvg, deltas, closesDown,
      List.range_succ]

lemma assignWhere_length (cond : ℕ → Bool) (v : ℤ) (sig : List ℤ) :
    (assignWhere cond v sig).length = sig.length := by
  simp [assignWhere]

lemma assignWhere_getD (cond : ℕ → Bool) (v : ℤ) (sig : List ℤ) (t : ℕ)
    (h : t < sig.length) :
    (assignWhere cond v sig).getD t 0 = if cond t then v else sig.getD t 0 := by
  simp [assignWhere, List.getD_eq_getElem?_getD, List.getElem?_map, List.getElem?_range, h]

lemma not_inOverbought_of_inOversold (period : ℕ) (os ob : ℚ) (closes : List ℚ)
    (t : ℕ) (h : os ≤ ob) (hos : inOversold period os closes t = true) :
    inOverbought period ob closes t = false := by
  unfold inOversold at hos
  unfold inOverbought
  cases hrsi : rsiAt period closes t with
  | none => rfl
  | some r =>
    rw [hrsi] at hos
    simp only [decide_eq_true_eq] at hos ⊢
    simp only [decide_eq_false_iff_not, not_lt]
    linarith

/-- C4 (amended): for thresholds with oversold ≤ overbought, the RSI
strategy emits +1 exactly on the bars that enter the oversold zone (RSI
below oversold and the previous bar not below) and -1 exactly on the bars
that enter the overbought zone — edge-triggered, not on every in-zone
bar. -/
theorem C4_amended (period : ℕ) (oversold overbought : ℚ) (closes : List ℚ) (t : ℕ)
    (ht : t < closes.length) (hob : oversold ≤ overbought) :
    ((RSIStrategy.generate_signals period oversold overbought closes).getD t 0 = 1 ↔
      enterOversold period oversold closes t = true) ∧
    ((RSIStrategy.generate_signals period oversold overbought closes).getD t 0 = -1 ↔
      enterOverbought period overbought closes t = true) := by
  unfold RSIStrategy.generate_signals
  rw [assignWhere_getD _ _ _ t (by rw [assignWhere_length]; simpa using ht),
      assignWhere_getD _ _ _ t (by simpa using ht)]
  have hrep : (List.replicate closes.length (0 : ℤ)).getD t 0 = 0 := by
    simp [List.getD_eq_getElem?_getD, List.getElem?_replicate, ht]
  rw [hrep]
  by_cases hOB : enterOverbought period overbought closes t = true
  · have hIOB : inOverbought period overbought closes t = true := by
      unfold enterOverbought at hOB
      exact (Bool.and_eq_true _ _ |>.mp hOB).1
    have hIOS : inOversold period oversold closes t = false := by
      cases h' : inOversold period oversold closes t
      · rfl
      · rw [not_inOverbought_of_inOversold period oversold overbought closes t hob h'] at hIOB
        exact absurd hIOB (by simp)
    have hOS : enterOversold period oversold closes t = false := by
      unfold enterOversold
      rw [hIOS]
      simp
    simp [hOB, hOS]
  · by_cases hOS : enterOversold period oversold closes t = true
    · simp [hOB, hOS]
    · simp [hOB, hOS]

/-- C4 witness: C4_amended applied at bar 2 of closes [10,9,8,7] with
period 2 and thresholds 30/70 (the bar that enters the oversold zone). -/
theorem C4_witness :
    ((RSIStrategy.generate_signals 2 30 70 closesDown).getD 2 0 = 1 ↔
      enterOversold 2 30 closesDown 2 = true) ∧
    ((RSIStrategy.generate_signals 2 30 70 closesDown).getD 2 0 = -1 ↔
      enterOverbought 2 70 closesDown 2 = true) :=
  C4_amended 2 30 70 closesDown 2 (by norm_num [closesDown]) (by norm_num)

/-- Invariant: whenever a position is open, all cash is invested (opening
sets `current_capital` to 0 and only closing refills it). -/
def CashZero (p : Portfolio) : Prop := 0 < p.position → p.current_capital = 0

lemma cashZero_execute_trade (p : Portfolio) (d : ℕ) (pr : ℚ) (s : ℤ)
    (h : CashZero p) : CashZero (p.execute_trade d pr s).1 := by
  unfold Portfolio.execute_trade Portfolio.open_long Portfolio.close_long
  dsimp only
  split_ifs <;> first
    | exact h
    | (intro _; rfl)
    | (intro h'; exact absurd h' (by simp))

lemma cashZero_runStep (p : Portfolio) (b : Bar) (h : CashZero p) :
    CashZero (runStep p b) := by
  unfold runStep Portfolio.update_equity_curve
  exact cashZero_execute_trade p b.date _ b.signal h

lemma cashZero_runLoop (bars : List Bar) : ∀ p : Portfolio,
    CashZero p → CashZero (runLoop p bars) := by
  induction bars with
  | nil => intro p h; exact h
  | cons b bs ih =>
    intro p h
    rw [runLoop_cons]
    exact ih _ (cashZero_runStep p b h)

lemma runLoop_curve_getLast (bars : List Bar) : ∀ (b : Bar), bars.getLast? = some b →
    ∀ p : Portfolio, (runLoop p bars).equity_curve.getLast? =
      some ((runLoop p bars).current_capital + (runLoop p bars).position * b.close) := by
  induction bars with
  | nil => intro b hb; simp at hb
  | cons hd tl ih =>
    intro b hb p
    cases tl with
    | nil =>
      simp only [List.getLast?_singleton, Option.some.injEq] at hb
      subst hb
      rw [show runLoop p [hd] = runStep p hd from rfl]
      unfold runStep Portfolio.update_equity_curve Portfolio.get_equity
      simp
    | cons t0 ts =>
      rw [List.getLast?_cons_cons] at hb
      rw [runLoop_cons]
      exact ih b hb (runStep p hd)

lemma close_long_of_ne (p : Portfolio) (d : ℕ) (pr : ℚ) (h : p.position ≠ 0) :
    (p.close_long d pr).1 = { p with
      trades := p.trades ++ [⟨p.position_entry_date.getD 0, d, p.position_entry_price,
        pr, p.position, "long", p.position * pr * p.commission_rate⟩]
      current_capital := p.position * pr - p.position * pr * p.commission_rate
      total_commission_paid := p.total_commission_paid + p.position * pr * p.commission_rate
      position := 0
      position_entry_price := 0
      position_entry_date := none } := by
  unfold Portfolio.close_long
  dsimp only
  rw [if_neg h]

/-- C10: when a position survives the bar loop, the forced end-of-run
close records a trade at the last bar's raw close price (no slippage
adjustment) with exit commission shares × close × rate, and the final
equity point — appended before the forced close — exceeds the resulting
final cash by exactly that exit commission. -/
theorem C10_theorem (cap comm slip : ℚ) (bars : List Bar) (b : Bar)
    (hb : bars.getLast? = some b)
    (hpos : 0 < (runLoop (Portfolio.init cap comm slip) bars).position) :
    (∃ t, (Backtester.run cap comm slip bars).trades =
        (runLoop (Portfolio.init cap comm slip) bars).trades ++ [t] ∧
        t.exit_price = b.close ∧ t.exit_date = b.date ∧
        t.commission = (runLoop (Portfolio.init cap comm slip) bars).position * b.close * comm) ∧
    (Backtester.run cap comm slip bars).equity_curve.getLast? =
      some ((Backtester.run cap comm slip bars).current_capital +
        (runLoop (Portfolio.init cap comm slip) bars).position * b.close * comm) := by
  have hcz : (runLoop (Portfolio.init cap comm slip) bars).current_capital = 0 :=
    cashZero_runLoop bars (Portfolio.init cap comm slip) (fun h => by
      simp [Portfolio.init] at h) hpos
  have hcomm : (runLoop (Portfolio.init cap comm slip) bars).commission_rate = comm :=
    (runLoop_static bars (Portfolio.init cap comm slip)).2.1
  have hrun : Backtester.run cap comm slip bars =
      ((runLoop (Portfolio.init cap comm slip) bars).close_long b.date b.close).1 := by
    unfold Backtester.run forceClose
    rw [if_pos hpos, hb]
  have hclose := close_long_of_ne (runLoop (Portfolio.init cap comm slip) bars)
    b.date b.close (ne_of_gt hpos)
  constructor
  · refine ⟨⟨(runLoop (Portfolio.init cap comm slip) bars).position_entry_date.getD 0,
      b.date, (runLoop (Portfolio.init cap comm slip) bars).position_entry_price, b.close,
      (runLoop (Portfolio.init cap comm slip) bars).position, "long",
      (runLoop (Portfolio.init cap comm slip) bars).position * b.close * comm⟩,
      ?_, rfl, rfl, rfl⟩
    rw [hrun, hclose, hcomm]
  · have hlast := runLoop_curve_getLast bars b hb (Portfolio.init cap comm slip)
    rw [hrun, hclose]
    dsimp only
    rw [hlast, hcz, hcomm]
    simp only [Option.some.injEq]
    ring

/-- C10 witness: C10_theorem applied to the single-bar run bars1 (buy on
the only bar, force-closed on that bar at price 100, commission 0.1%). -/
theorem C10_witness :
    (∃ t, (Backtester.run 10000 (1 / 1000) 0 bars1).trades =
        (runLoop (Portfolio.init 10000 (1 / 1000) 0) bars1).trades ++ [t] ∧
        t.exit_price = (100 : ℚ) ∧ t.exit_date = 5 ∧
        t.commission =
          (runLoop (Portfolio.init 10000 (1 / 1000) 0) bars1).position * 100 * (1 / 1000)) ∧
    (Backtester.run 10000 (1 / 1000) 0 bars1).equity_curve.getLast? =
      some ((Backtester.run 10000 (1 / 1000) 0 bars1).current_capital +
        (runLoop (Portfolio.init 10000 (1 / 1000) 0) bars1).position * 100 * (1 / 1000)) :=
  C10_theorem 10000 (1 / 1000) 0 bars1 ⟨5, 100, 1⟩ (by simp [bars1])
    (by norm_num [runLoop, runStep, Portfolio.execute_trade, Portfolio.open_long,
      Portfolio.close_long, Portfolio.update_equity_curve, Portfolio.get_equity,
      Portfolio.init, intSign, bars1])

lemma pnlSum_append (l : List Trade) (t : Trade) :
    pnlSum (l ++ [t]) = pnlSum l + t.pnl := by
  simp [pnlSum]

lemma commSum_append (l : List Trade) (t : Trade) :
    commSum (l ++ [t]) = commSum l + t.commission := by
  simp [commSum]

/-- Cash-conservation invariant: invested capital at cost plus cash equals
the initial capital plus the recorded pnl minus the entry commissions paid
so far (total commissions paid minus the exit commissions stored on
trades). -/
def ConsState (p : Portfolio) : Prop :=
  CashZero p ∧
  p.current_capital + p.position * p.position_entry_price =
    p.initial_capital + pnlSum p.trades -
      (p.total_commission_paid - commSum p.trades)

lemma consState_open (p : Portfolio) (d : ℕ) (pr : ℚ) (hpr : 0 < pr)
    (hpos : p.position = 0) (h : ConsState p) : ConsState (p.open_long d pr).1 := by
  obtain ⟨-, heq⟩ := h
  rw [hpos, zero_mul, add_zero] at heq
  unfold Portfolio.open_long
  dsimp only
  split_ifs with hc ha
  · exact ⟨fun h' => by rw [hpos] at h'; exact absurd h' (lt_irrefl 0), by
      rw [hpos, zero_mul, add_zero]; exact heq⟩
  · exact ⟨fun h' => by rw [hpos] at h'; exact absurd h' (lt_irrefl 0), by
      rw [hpos, zero_mul, add_zero]; exact heq⟩
  · refine ⟨fun _ => rfl, ?_⟩
    dsimp only
    rw [div_mul_cancel₀ _ (ne_of_gt hpr)]
    linarith

lemma consState_close (p : Portfolio) (d : ℕ) (pr : ℚ)
    (hpos : 0 < p.position) (h : ConsState p) : ConsState (p.close_long d pr).1 := by
  obtain ⟨hcz, heq⟩ := h
  have hcash : p.current_capital = 0 := hcz hpos
  rw [close_long_of_ne p d pr (ne_of_gt hpos)]
  refine ⟨fun h' => by exact absurd h' (lt_irrefl 0), ?_⟩
  dsimp only
  rw [pnlSum_append, commSum_append]
  simp only [Trade.pnl]
  norm_num
  rw [hcash] at heq
  nlinarith [heq]

lemma consState_execute_trade (p : Portfolio) (d : ℕ) (pr : ℚ) (s : ℤ)
    (hpr : 0 < pr) (hslip : 0 ≤ p.slippage_rate)
    (h : ConsState p) : ConsState (p.execute_trade d pr s).1 := by
  unfold Portfolio.execute_trade
  dsimp only
  split_ifs with h0 h1 h2
  · exact h
  · refine consState_open p d _ ?_ h1.2 h
    have : intSign s = 1 := by rw [h1.1]; rfl
    rw [this]
    have : (0 : ℚ) < 1 + p.slippage_rate * 1 := by linarith
    positivity
  · exact consState_close p d _ h2.2 h
  · exact h

lemma consState_runStep (p : Portfolio) (b : Bar) (hpr : 0 < b.close)
    (hslip : 0 ≤ p.slippage_rate) (h : ConsState p) : ConsState (runStep p b) := by
  unfold runStep Portfolio.update_equity_curve
  have := consState_execute_trade p b.date b.close b.signal hpr hslip h
  exact ⟨this.1, this.2⟩

lemma consState_runLoop (bars : List Bar) : ∀ p : Portfolio,
    0 ≤ p.slippage_rate → (∀ b ∈ bars, 0 < b.close) →
    ConsState p → ConsState (runLoop p bars) := by
  induction bars with
  | nil => intro p _ _ h; exact h
  | cons b bs ih =>
    intro p hslip hcl h
    rw [runLoop_cons]
    refine ih _ ?_ (fun b' hb' => hcl b' (List.mem_cons_of_mem _ hb')) ?_
    · rw [(runStep_static ..).2.2]; exact hslip
    · exact consState_runStep p b (hcl b (List.mem_cons_self _ _)) hslip h

/-- C1 (amended): for any run with positive closes and non-negative
slippage that ends flat (after the forced liquidation), the final cash —
the portfolio's whole equity once flat — equals the initial capital plus
the recorded pnl sum minus the entry commissions (total commissions paid
minus the exit commissions attributed to trades); the claimed law without
the entry-commission term fails whenever a position was opened at a
positive commission rate. -/
theorem C1_amended (cap comm slip : ℚ) (bars : List Bar)
    (hslip : 0 ≤ slip) (hcl : ∀ b ∈ bars, 0 < b.close)
    (hflat : (Backtester.run cap comm slip bars).position = 0) :
    (Backtester.run cap comm slip bars).current_capital =
      cap + pnlSum (Backtester.run cap comm slip bars).trades -
        ((Backtester.run cap comm slip bars).total_commission_paid -
          commSum (Backtester.run cap comm slip bars).trades) := by
  have hinit : ConsState (Portfolio.init cap comm slip) := by
    refine ⟨fun h => absurd h (lt_irrefl 0), ?_⟩
    simp [Portfolio.init, pnlSum, commSum]
  have hloop := consState_runLoop bars (Portfolio.init cap comm slip)
    (by simpa [Portfolio.init] using hslip) hcl hinit
  have hic : (runLoop (Portfolio.init cap comm slip) bars).initial_capital = cap :=
    (runLoop_static ..).1
  by_cases hpos : 0 < (runLoop (Portfolio.init cap comm slip) bars).position
  · cases hb : bars.getLast? with
    | none =>
      rw [List.getLast?_eq_none_iff] at hb
      rw [hb] at hpos
      simp [runLoop, Portfolio.init] at hpos
    | some b =>
      have hrun : Backtester.run cap comm slip bars =
          ((runLoop (Portfolio.init cap comm slip) bars).close_long b.date b.close).1 := by
        unfold Backtester.run forceClose
        rw [if_pos hpos, hb]
      have hfinal := consState_close (runLoop (Portfolio.init cap comm slip) bars)
        b.date b.close hpos hloop
      rw [hrun]
      rw [hrun] at hflat
      have heq := hfinal.2
      rw [hflat, zero_mul, add_zero] at heq
      rw [heq, (close_long_static ..).1, hic]
  · have hrun : Backtester.run cap comm slip bars =
        runLoop (Portfolio.init cap comm slip) bars := by
      unfold Backtester.run forceClose
      rw [if_neg hpos]
    rw [hrun]
    rw [hrun] at hflat
    have heq := hloop.2
    rw [hflat, zero_mul, add_zero] at heq
    rw [heq, hic]

/-- C1 witness: C1_amended applied to the 2-bar round trip bars2; cash
10978.011 = 10000 + 988.011 - (20.989 - 10.989). -/
theorem C1_witness :
    (Backtester.run 10000 (1 / 1000) 0 bars2).current_capital =
      10000 + pnlSum (Backtester.run 10000 (1 / 1000) 0 bars2).trades -
        ((Backtester.run 10000 (1 / 1000) 0 bars2).total_commission_paid -
          commSum (Backtester.run 10000 (1 / 1000) 0 bars2).trades) :=
  C1_amended 10000 (1 / 1000) 0 bars2 (by norm_num) (by norm_num [bars2])
    (by norm_num [Backtester.run, forceClose, runLoop, runStep, Portfolio.execute_trade,
      Portfolio.open_long, Portfolio.close_long, Portfolio.update_equity_curve,
      Portfolio.get_equity, Portfolio.init, intSign, bars2])

/-- Ledger ordering invariant: recorded trades have entry ≤ exit, are
chained with each exit strictly before the next entry, every recorded exit
precedes the entry date of any currently open position, and an open
position always carries an entry date. -/
def LedgerInv (p : Portfolio) : Prop :=
  (∀ t ∈ p.trades, t.entry_date ≤ t.exit_date) ∧
  List.Chain' (fun a b => a.exit_date < b.entry_date) p.trades ∧
  (∀ e, p.position_entry_date = some e → ∀ t ∈ p.trades, t.exit_date < e) ∧
  (p.position ≠ 0 → p.position_entry_date ≠ none)

/-- All recorded activity of `p` lies strictly (exits) or weakly (open
entry) before the date `d`. -/
def FreshFor (p : Portfolio) (d : ℕ) : Prop :=
  (∀ t ∈ p.trades, t.exit_date < d) ∧
  (∀ e, p.position_entry_date = some e → e ≤ d)

lemma execute_trade_ledger_cases (p : Portfolio) (d : ℕ) (pr : ℚ) (s : ℤ) :
    ((p.execute_trade d pr s).1.trades = p.trades ∧
     (p.execute_trade d pr s).1.position_entry_date = p.position_entry_date ∧
     (p.execute_trade d pr s).1.position = p.position) ∨
    ((p.execute_trade d pr s).1.trades = p.trades ∧
     (p.execute_trade d pr s).1.position_entry_date = some d) ∨
    (0 < p.position ∧
     (p.execute_trade d pr s).1.position_entry_date = none ∧
     (p.execute_trade d pr s).1.position = 0 ∧
     ∃ pr2, (p.execute_trade d pr s).1.trades =
       p.trades ++ [⟨p.position_entry_date.getD 0, d, p.position_entry_price, pr2,
         p.position, "long", p.position * pr2 * p.commission_rate⟩]) := by
  unfold Portfolio.execute_trade
  dsimp only
  split_ifs with h0 h1 h2
  · exact Or.inl ⟨rfl, rfl, rfl⟩
  · unfold Portfolio.open_long
    dsimp only
    split_ifs
    · exact Or.inl ⟨rfl, rfl, rfl⟩
    · exact Or.inl ⟨rfl, rfl, rfl⟩
    · exact Or.inr (Or.inl ⟨rfl, rfl⟩)
  · rw [close_long_of_ne p d _ (ne_of_gt h2.2)]
    exact Or.inr (Or.inr ⟨h2.2, rfl, rfl, _, rfl⟩)
  · exact Or.inl ⟨rfl, rfl, rfl⟩

lemma runStep_trades_eq (p : Portfolio) (b : Bar) :
    (runStep p b).trades = (p.execute_trade b.date b.close b.signal).1.trades := rfl

lemma runStep_entry_eq (p : Portfolio) (b : Bar) :
    (runStep p b).position_entry_date =
      (p.execute_trade b.date b.close b.signal).1.position_entry_date := rfl

lemma runStep_position_eq (p : Portfolio) (b : Bar) :
    (runStep p b).position = (p.execute_trade b.date b.close b.signal).1.position := rfl

lemma ledger_runStep (p : Portfolio) (b : Bar) (hI : LedgerInv p)
    (hF : FreshFor p b.date) :
    LedgerInv (runStep p b) ∧
    (∀ d, b.date < d → FreshFor p d → FreshFor (runStep p b) d) ∧
    (∀ e, (runStep p b).position_entry_date = some e →
      p.position_entry_date = some e ∨ e = b.date) := by
  obtain ⟨hle, hch, hsep, hopen⟩ := hI
  rcases execute_trade_ledger_cases p b.date b.close b.signal with
    ⟨ht, he, hp⟩ | ⟨ht, he⟩ | ⟨hpos, he, hp, pr2, ht⟩
  · refine ⟨⟨?_, ?_, ?_, ?_⟩, ?_, ?_⟩
    · rw [runStep_trades_eq, ht]; exact hle
    · rw [runStep_trades_eq, ht]; exact hch
    · rw [runStep_entry_eq, he, runStep_trades_eq, ht]; exact hsep
    · rw [runStep_entry_eq, he, runStep_position_eq, hp]; exact hopen
    · intro d _ hFd
      exact ⟨by rw [runStep_trades_eq, ht]; exact hFd.1,
        by rw [runStep_entry_eq, he]; exact hFd.2⟩
    · intro e hee
      rw [runStep_entry_eq, he] at hee
      exact Or.inl hee
  · refine ⟨⟨?_, ?_, ?_, ?_⟩, ?_, ?_⟩
    · rw [runStep_trades_eq, ht]; exact hle
    · rw [runStep_trades_eq, ht]; exact hch
    · rw [runStep_entry_eq, he, runStep_trades_eq, ht]
      intro e hee
      injection hee with hee
      subst hee
      exact hF.1
    · rw [runStep_entry_eq, he]
      intro _
      exact Option.some_ne_none _
    · intro d hlt hFd
      refine ⟨by rw [runStep_trades_eq, ht]; exact hFd.1, ?_⟩
      rw [runStep_entry_eq, he]
      intro e hee
      injection hee with hee
      subst hee
      exact le_of_lt hlt
    · intro e hee
      rw [runStep_entry_eq, he] at hee
      injection hee with hee
      exact Or.inr hee.symm
  · obtain ⟨e0, hE⟩ : ∃ e0, p.position_entry_date = some e0 := by
      cases hpe : p.position_entry_date with
      | none => exact absurd hpe (hopen (ne_of_gt hpos))
      | some e0 => exact ⟨e0, rfl⟩
    rw [hE] at ht
    simp only [Option.getD_some] at ht
    refine ⟨⟨?_, ?_, ?_, ?_⟩, ?_, ?_⟩
    · rw [runStep_trades_eq, ht]
      intro t htm
      rcases List.mem_append.mp htm with hin | hin
      · exact hle t hin
      · rcases List.mem_singleton.mp hin with rfl
        exact hF.2 e0 hE
    · rw [runStep_trades_eq, ht]
      rw [List.chain'_append]
      refine ⟨hch, List.chain'_singleton _, ?_⟩
      intro x hx y hy
      simp only [List.head?_cons, Option.mem_def, Option.some.injEq] at hy
      subst hy
      exact hsep e0 hE x (List.mem_of_mem_getLast? hx)
    · rw [runStep_entry_eq, he]
      intro e hee
      exact absurd hee (by simp)
    · rw [runStep_position_eq, hp]
      intro hne
      exact absurd rfl hne
    · intro d hlt hFd
      refine ⟨?_, ?_⟩
      · rw [runStep_trades_eq, ht]
        intro t htm
        rcases List.mem_append.mp htm with hin | hin
        · exact hFd.1 t hin
        · rcases List.mem_singleton.mp hin with rfl
          exact hlt
      · rw [runStep_entry_eq, he]
        intro e hee
        exact absurd hee (by simp)
    · intro e hee
      rw [runStep_entry_eq, he] at hee
      exact absurd hee (by simp)

lemma ledger_runLoop (bars : List Bar) : ∀ p : Portfolio,
    List.Pairwise (· < ·) (bars.map Bar.date) →
    LedgerInv p → (∀ b ∈ bars, FreshFor p b.date) →
    LedgerInv (runLoop p bars) ∧
    (∀ e, (runLoop p bars).position_entry_date = some e →
      p.position_entry_date = some e ∨ e ∈ bars.map Bar.date) := by
  induction bars with
  | nil => intro p _ hI _; exact ⟨hI, fun e he => Or.inl he⟩
  | cons b bs ih =>
    intro p hpw hI hF
    rw [List.map_cons, List.pairwise_cons] at hpw
    obtain ⟨hblt, hpw'⟩ := hpw
    obtain ⟨hI', hFmono, hprov⟩ := ledger_runStep p b hI (hF b (List.mem_cons_self _ _))
    rw [runLoop_cons]
    have hF' : ∀ b' ∈ bs, FreshFor (runStep p b) b'.date := fun b' hb' =>
      hFmono b'.date (hblt _ (List.mem_map_of_mem _ hb')) (hF b' (List.mem_cons_of_mem _ hb'))
    obtain ⟨hIfin, hprovfin⟩ := ih (runStep p b) hpw' hI' hF'
    refine ⟨hIfin, fun e he => ?_⟩
    rcases hprovfin e he with h1 | h2
    · rcases hprov e h1 with h3 | h4
      · exact Or.inl h3
      · subst h4
        exact Or.inr (by rw [List.map_cons]; exact List.mem_cons_self _ _)
    · exact Or.inr (by rw [List.map_cons]; exact List.mem_cons_of_mem _ h2)

lemma sorted_le_getLast : ∀ (l : List ℕ), List.Pairwise (· < ·) l →
    ∀ x ∈ l, ∀ y, l.getLast? = some y → x ≤ y := by
  intro l
  induction l with
  | nil => intro _ x hx; exact absurd hx (List.not_mem_nil x)
  | cons a l ih =>
    intro hpw x hx y hy
    rw [List.pairwise_cons] at hpw
    cases l with
    | nil =>
      simp only [List.getLast?_singleton, Option.some.injEq] at hy
      subst hy
      rcases List.mem_singleton.mp hx with rfl
      exact le_refl _
    | cons c cs =>
      rw [List.getLast?_cons_cons] at hy
      rcases List.mem_cons.mp hx with rfl | hx'
      · have hy_mem : y ∈ c :: cs := List.mem_of_mem_getLast? hy
        exact le_of_lt (hpw.1 y hy_mem)
      · exact ih hpw.2 x hx' y hy

/-- C5 (amended): on a strictly increasing date series every recorded
trade has exit_date at least its entry_date (equality only possible when
the forced end-of-run liquidation closes a position opened on the last
bar), and the trades are ordered with each trade's exit strictly before
the next trade's entry — the ledger never holds two concurrent open
positions. -/
theorem C5_amended (cap comm slip : ℚ) (bars : List Bar)
    (hpw : List.Pairwise (· < ·) (bars.map Bar.date)) :
    (∀ t ∈ (Backtester.run cap comm slip bars).trades, t.entry_date ≤ t.exit_date) ∧
    List.Chain' (fun a b => a.exit_date < b.entry_date)
      (Backtester.run cap comm slip bars).trades := by
  have hIinit : LedgerInv (Portfolio.init cap comm slip) := by
    refine ⟨?_, ?_, ?_, ?_⟩
    · intro t ht; exact absurd ht (List.not_mem_nil t)
    · exact List.chain'_nil
    · intro e he; exact absurd he (by simp [Portfolio.init])
    · intro h; exact absurd rfl h
  have hFinit : ∀ b ∈ bars, FreshFor (Portfolio.init cap comm slip) b.date := by
    intro b _
    exact ⟨fun t ht => absurd ht (List.not_mem_nil t),
      fun e he => absurd he (by simp [Portfolio.init])⟩
  obtain ⟨hIl, hprov⟩ := ledger_runLoop bars (Portfolio.init cap comm slip) hpw hIinit hFinit
  obtain ⟨hle, hch, hsep, hopen⟩ := hIl
  by_cases hpos : 0 < (runLoop (Portfolio.init cap comm slip) bars).position
  · cases hb : bars.getLast? with
    | none =>
      rw [List.getLast?_eq_none_iff] at hb
      rw [hb] at hpos
      simp [runLoop, Portfolio.init] at hpos
    | some b =>
      have hrun : Backtester.run cap comm slip bars =
          ((runLoop (Portfolio.init cap comm slip) bars).close_long b.date b.close).1 := by
        unfold Backtester.run forceClose
        rw [if_pos hpos, hb]
      obtain ⟨e0, hE⟩ : ∃ e0,
          (runLoop (Portfolio.init cap comm slip) bars).position_entry_date = some e0 := by
        cases hpe : (runLoop (Portfolio.init cap comm slip) bars).position_entry_date with
        | none => exact absurd hpe (hopen (ne_of_gt hpos))
        | some e0 => exact ⟨e0, rfl⟩
      have he0mem : e0 ∈ bars.map Bar.date := by
        rcases hprov e0 hE with h1 | h2
        · exact absurd h1 (by simp [Portfolio.init])
        · exact h2
      have he0le : e0 ≤ b.date := by
        refine sorted_le_getLast (bars.map Bar.date) hpw e0 he0mem b.date ?_
        rw [List.getLast?_map, hb]
        rfl
      rw [hrun, close_long_of_ne _ _ _ (ne_of_gt hpos)]
      dsimp only
      rw [hE]
      simp only [Option.getD_some]
      constructor
      · intro t htm
        rcases List.mem_append.mp htm with hin | hin
        · exact hle t hin
        · rcases List.mem_singleton.mp hin with rfl
          exact he0le
      · rw [List.chain'_append]
        refine ⟨hch, List.chain'_singleton _, ?_⟩
        intro x hx y hy
        simp only [List.head?_cons, Option.mem_def, Option.some.injEq] at hy
        subst hy
        exact hsep e0 hE x (List.mem_of_mem_getLast? hx)
  · have hrun : Backtester.run cap comm slip bars =
        runLoop (Portfolio.init cap comm slip) bars := by
      unfold Backtester.run forceClose
      rw [if_neg hpos]
    rw [hrun]
    exact ⟨hle, hch⟩

/-- C5 witness: C5_amended applied to the 2-bar round trip bars2, whose
dates 0 < 1 are strictly increasing. -/
theorem C5_witness :
    (∀ t ∈ (Backtester.run 10000 (1 / 1000) 0 bars2).trades,
      t.entry_date ≤ t.exit_date) ∧
    List.Chain' (fun a b => a.exit_date < b.entry_date)
      (Backtester.run 10000 (1 / 1000) 0 bars2).trades :=
  C5_amended 10000 (1 / 1000) 0 bars2 (by simp [bars2])
